import Mathlib

/-!
Verification of the x.uma generic match engine (rumi).

This development embeds, shallowly, the parts of the repository the
claims are about:

* the JSON config schema and its serde-style deserializers
  (src/rumi/core/src/config.rs);
* the core matcher data model and evaluator (modelled from the spec,
  sections 3, 4.3 and 4.4 — the core crate's matcher module is not
  part of the provided sources, only its config types are);
* the Claude hook-event domain (src/rumi/ext/claude);
* the simple HTTP domain (src/rumi/ext/http/src/simple.rs);
* the proto bridge (src/rumi/proto/src/convert.rs).
-/

/- ═══════════════ JSON values and serde-style field access ═══════════════ -/

/-- JSON values, as carried by serde_json::Value.  Numbers are modelled as
integers; none of the verified code inspects numeric payloads. -/
inductive Json where
  | null
  | bool (b : Bool)
  | num (n : Int)
  | str (s : String)
  | arr (items : List Json)
  | obj (fields : List (String × Json))

/-- Look up an optional field of a JSON object, mirroring the field handling
of serde's derived struct deserializers: an absent field gives `none`, a
duplicated field is an error. -/
def getOpt (fields : List (String × Json)) (k : String) : Except String (Option Json) :=
  match fields.filter (fun f => f.1 == k) with
  | [] => .ok none
  | [f] => .ok (some f.2)
  | _ => .error ("duplicate field `" ++ k ++ "`")

/- ═══════════════ Config schema (src/rumi/core/src/config.rs) ═══════════════ -/

/-- Modelled from the spec: `StringMatchSpec` lives in the rumi core crate,
whose matcher module is not among the provided sources.  Its JSON form
(spec section 6) is an externally tagged enum with variants
Exact / Prefix / Suffix / Contains / Regex, each carrying a pattern string. -/
inductive StringMatchSpec where
  | Exact (s : String)
  | Prefix (s : String)
  | Suffix (s : String)
  | Contains (s : String)
  | Regex (s : String)
deriving DecidableEq

/-- `TypedConfig` — reference to a registered type with its configuration
(config.rs lines 166–180).  `type_url` is required, `config` defaults to
the empty JSON object. -/
structure TypedConfig where
  type_url : String
  config : Json

/-- `ValueMatchConfig` (config.rs lines 93–99): built-in string matching or
a custom registry-resolved matcher. -/
inductive ValueMatchConfig where
  | builtIn (spec : StringMatchSpec)
  | custom (tc : TypedConfig)

/-- `SinglePredicateConfig` (config.rs lines 116–124). -/
structure SinglePredicateConfig where
  input : TypedConfig
  matcher : ValueMatchConfig

/-- Deserializer for `StringMatchSpec`: serde's externally tagged enum
representation, a single-key map from the variant name to a string. -/
def deserializeStringMatchSpec (j : Json) : Except String StringMatchSpec :=
  match j with
  | .obj [(k, v)] =>
    match k, v with
    | "Exact", .str s => .ok (.Exact s)
    | "Prefix", .str s => .ok (.Prefix s)
    | "Suffix", .str s => .ok (.Suffix s)
    | "Contains", .str s => .ok (.Contains s)
    | "Regex", .str s => .ok (.Regex s)
    | "Exact", _ => .error "invalid type for string match pattern"
    | "Prefix", _ => .error "invalid type for string match pattern"
    | "Suffix", _ => .error "invalid type for string match pattern"
    | "Contains", _ => .error "invalid type for string match pattern"
    | "Regex", _ => .error "invalid type for string match pattern"
    | _, _ => .error ("unknown variant `" ++ k ++ "`")
  | _ => .error "expected a map with a single variant key"

/-- Deserializer for `TypedConfig` (config.rs lines 166–180): `type_url` is
a required string, `config` takes any JSON value and defaults to `{}`
(`default_config`, config.rs lines 178–180) when the field is omitted. -/
def deserializeTypedConfig (j : Json) : Except String TypedConfig :=
  match j with
  | .obj fs => do
    let tu? ← getOpt fs "type_url"
    match tu? with
    | some (.str u) => do
      let cfg? ← getOpt fs "config"
      .ok ⟨u, cfg?.getD (.obj [])⟩
    | some _ => .error "invalid type: expected a string for `type_url`"
    | none => .error "missing field `type_url`"
  | _ => .error "invalid type: expected a map for TypedConfig"

/-- `UnitConfig` (config.rs lines 187–195): empty configuration for inputs
that need none. -/
inductive UnitConfig where
  | mk

/-- Deserializer for `UnitConfig` (config.rs lines 190–195): deserializes
`IgnoredAny`, i.e. accepts every JSON value and ignores it. -/
def deserializeUnitConfig (_ : Json) : Except String UnitConfig :=
  .ok .mk

/-- Deserializer for `SinglePredicateConfig` (config.rs lines 126–159):
the serde helper struct has a required `input` field and two optional
fields `value_match` / `custom_match` (a JSON `null` deserializes into
an empty `Option`, as serde does for `Option<T>` fields); the pair is
then validated to exactly-one-set. -/
def deserializeSinglePredicateConfig (j : Json) : Except String SinglePredicateConfig :=
  match j with
  | .obj fs => do
    let jin? ← getOpt fs "input"
    match jin? with
    | none => .error "missing field `input`"
    | some jin => do
      let input ← deserializeTypedConfig jin
      let jv? ← getOpt fs "value_match"
      let vm? ← match jv? with
        | none => pure none
        | some .null => pure none
        | some v => (deserializeStringMatchSpec v).map some
      let jc? ← getOpt fs "custom_match"
      let cm? ← match jc? with
        | none => pure none
        | some .null => pure none
        | some v => (deserializeTypedConfig v).map some
      match vm?, cm? with
      | some spec, none => .ok ⟨input, .builtIn spec⟩
      | none, some tcm => .ok ⟨input, .custom tcm⟩
      | some _, some _ =>
        .error "exactly one of `value_match` or `custom_match` must be set, got both"
      | none, none =>
        .error "one of `value_match` or `custom_match` is required"
  | _ => .error "invalid type: expected a map for SinglePredicateConfig"

example : deserializeSinglePredicateConfig (.obj
    [("input", .obj [("type_url", .str "a")]),
     ("value_match", .obj [("Exact", .str "x")])])
    = .ok ⟨⟨"a", .obj []⟩, .builtIn (.Exact "x")⟩ := by rfl

example : deserializeSinglePredicateConfig (.obj
    [("input", .obj [("type_url", .str "a")])])
    = .error "one of `value_match` or `custom_match` is required" := by rfl

/-- C1: deserializing a `single` predicate configuration succeeds exactly
when exactly one of `value_match` / `custom_match` is present (with a
well-formed payload): both present or neither present fails with an error
message naming the `value_match`/`custom_match` field pair; exactly
`value_match` yields the built-in string-match spec; exactly `custom_match`
yields the typed custom-matcher config. -/
theorem single_predicate_exclusivity
    (fs : List (String × Json)) (jin : Json) (tc : TypedConfig)
    (hin : getOpt fs "input" = .ok (some jin))
    (htc : deserializeTypedConfig jin = .ok tc) :
    (∀ jv spec, getOpt fs "value_match" = .ok (some jv) →
      deserializeStringMatchSpec jv = .ok spec →
      getOpt fs "custom_match" = .ok none →
      deserializeSinglePredicateConfig (.obj fs) = .ok ⟨tc, .builtIn spec⟩)
    ∧ (∀ jc tcm, getOpt fs "value_match" = .ok none →
      getOpt fs "custom_match" = .ok (some jc) →
      deserializeTypedConfig jc = .ok tcm →
      deserializeSinglePredicateConfig (.obj fs) = .ok ⟨tc, .custom tcm⟩)
    ∧ (∀ jv spec jc tcm, getOpt fs "value_match" = .ok (some jv) →
      deserializeStringMatchSpec jv = .ok spec →
      getOpt fs "custom_match" = .ok (some jc) →
      deserializeTypedConfig jc = .ok tcm →
      deserializeSinglePredicateConfig (.obj fs) =
        .error "exactly one of `value_match` or `custom_match` must be set, got both")
    ∧ (getOpt fs "value_match" = .ok none →
      getOpt fs "custom_match" = .ok none →
      deserializeSinglePredicateConfig (.obj fs) =
        .error "one of `value_match` or `custom_match` is required") := by
  refine ⟨?_, ?_, ?_, ?_⟩
  · intro jv spec hv hs hc
    cases jv <;>
      simp_all [deserializeSinglePredicateConfig, deserializeStringMatchSpec,
        Except.map, bind, Except.bind, pure, Except.pure]
  · intro jc tcm hv hc htcm
    cases jc <;>
      simp_all [deserializeSinglePredicateConfig, deserializeTypedConfig,
        Except.map, bind, Except.bind, pure, Except.pure]
  · intro jv spec jc tcm hv hs hc htcm
    cases jv <;> cases jc <;>
      simp_all [deserializeSinglePredicateConfig, deserializeStringMatchSpec,
        deserializeTypedConfig, Except.map, bind, Except.bind, pure, Except.pure]
  · intro hv hc
    simp_all [deserializeSinglePredicateConfig, Except.map, bind, Except.bind, pure, Except.pure]

/-- Witness for C1 at a concrete configuration object. -/
theorem single_predicate_exclusivity_witness :
    deserializeSinglePredicateConfig (.obj
      [("input", .obj [("type_url", .str "test.Input")]),
       ("value_match", .obj [("Exact", .str "hello")])])
      = .ok ⟨⟨"test.Input", .obj []⟩, .builtIn (.Exact "hello")⟩ :=
  (single_predicate_exclusivity
      [("input", .obj [("type_url", .str "test.Input")]),
       ("value_match", .obj [("Exact", .str "hello")])]
      (.obj [("type_url", .str "test.Input")]) ⟨"test.Input", .obj []⟩
      (by rfl) (by rfl)).1
    (.obj [("Exact", .str "hello")]) (.Exact "hello") (by rfl) (by rfl) (by rfl)

/-- C8: deserializing a `TypedConfig` whose JSON omits the `config` field
succeeds with config equal to the empty JSON object, and deserializing
`UnitConfig` succeeds for every JSON value (including `{}` and `null`),
ignoring the payload. -/
theorem typed_config_default_and_unit_config
    (fs : List (String × Json)) (u : String)
    (hu : getOpt fs "type_url" = .ok (some (.str u)))
    (hc : getOpt fs "config" = .ok none) :
    deserializeTypedConfig (.obj fs) = .ok ⟨u, .obj []⟩
    ∧ (∀ j : Json, deserializeUnitConfig j = .ok .mk)
    ∧ deserializeUnitConfig (.obj []) = .ok .mk
    ∧ deserializeUnitConfig .null = .ok .mk := by
  refine ⟨?_, fun _ => rfl, rfl, rfl⟩
  simp [deserializeTypedConfig, hu, hc, bind, Except.bind]

/-- Witness for C8 at a concrete configuration object. -/
theorem typed_config_default_and_unit_config_witness :
    deserializeTypedConfig (.obj [("type_url", .str "test.Input")])
      = .ok ⟨"test.Input", .obj []⟩ :=
  (typed_config_default_and_unit_config
    [("type_url", .str "test.Input")] "test.Input" (by rfl) (by rfl)).1

/- ═══════════ Core matcher data model and evaluator (spec §3, §4.3, §4.4) ═══════════ -/

/-- Modelled from the spec: `MatchingData` (spec §3) — the tagged value
carried from a data input to a value matcher.  The core crate defining the
runtime type is not among the provided sources; the variants are fixed by
the spec and by the extractors in src/rumi/ext. -/
inductive MatchingData where
  | str (s : String)
  | bytes (bs : List Nat)
  | bool (b : Bool)
  | none
deriving DecidableEq

/-- Modelled from the spec: `Predicate` (spec §3) — a recursive tree of
single predicates composed with And/Or/Not.  A single predicate holds a
data input (`Ctx → MatchingData`) and a value matcher
(`MatchingData → Bool`), the two capabilities of spec §9. -/
inductive Predicate (Ctx : Type) where
  | single (input : Ctx → MatchingData) (matcher : MatchingData → Bool)
  | and (ps : List (Predicate Ctx))
  | or (ps : List (Predicate Ctx))
  | not (p : Predicate Ctx)

/-- Modelled from the spec: predicate evaluation (spec §4.3) —
`Single` applies the matcher to the extracted data, `And`/`Or` are
n-ary with ordered short-circuit (empty And is true, empty Or is
false), `Not` negates. -/
def evalPred {Ctx : Type} : Predicate Ctx → Ctx → Bool
  | .single input m, ctx => m (input ctx)
  | .and [], _ => true
  | .and (p :: ps), ctx => evalPred p ctx && evalPred (.and ps) ctx
  | .or [], _ => false
  | .or (p :: ps), ctx => evalPred p ctx || evalPred (.or ps) ctx
  | .not p, ctx => !(evalPred p ctx)

/-- Modelled from the spec: `OnMatch` (spec §3) — either a terminal action
or a nested sub-matcher.  A nested matcher is carried by its two
components (ordered field matchers and optional fallback), exactly the
fields of the runtime `Matcher`. -/
inductive OnMatch (Ctx A : Type) where
  | action (a : A)
  | sub (fieldMatchers : List (Predicate Ctx × OnMatch Ctx A))
        (onNoMatch : Option (OnMatch Ctx A))

/-- Modelled from the spec: `Matcher` (spec §3) — ordered field matchers
plus an optional fallback. A field matcher is a (predicate, on-match)
pair; order within the list is significant. -/
structure Matcher (Ctx A : Type) where
  fieldMatchers : List (Predicate Ctx × OnMatch Ctx A)
  onNoMatch : Option (OnMatch Ctx A)

/-- Embed a matcher as the `OnMatch::Matcher` node holding it. -/
def OnMatch.ofMatcher {Ctx A : Type} (m : Matcher Ctx A) : OnMatch Ctx A :=
  .sub m.fieldMatchers m.onNoMatch

mutual

/-- Modelled from the spec: `dispatch` (spec §4.4) — an action is returned
directly, a nested matcher is evaluated recursively. -/
def dispatch {Ctx A : Type} (om : OnMatch Ctx A) (ctx : Ctx) : Option A :=
  match om with
  | .action a => some a
  | .sub fms fb =>
    (scanFieldMatchers fms ctx).orElse fun _ =>
      match fb with
      | some om2 => dispatch om2 ctx
      | Option.none => Option.none

/-- Modelled from the spec: the first-match-wins walk of `evaluate`
(spec §4.4) — scan field matchers in declared order; when a predicate
matches, dispatch its on-match; if that produces nothing, continue with
the next sibling. -/
def scanFieldMatchers {Ctx A : Type}
    (fms : List (Predicate Ctx × OnMatch Ctx A)) (ctx : Ctx) : Option A :=
  match fms with
  | [] => Option.none
  | (p, om) :: rest =>
    if evalPred p ctx then
      (dispatch om ctx).orElse fun _ => scanFieldMatchers rest ctx
    else scanFieldMatchers rest ctx

end

/-- Modelled from the spec: `evaluate` (spec §4.4) — walk the field
matchers; fall through to `on_no_match` when none produced an outcome. -/
def Matcher.evaluate {Ctx A : Type} (m : Matcher Ctx A) (ctx : Ctx) : Option A :=
  (scanFieldMatchers m.fieldMatchers ctx).orElse fun _ =>
    match m.onNoMatch with
    | some om => dispatch om ctx
    | Option.none => Option.none

/-- Dispatching a nested-matcher node is evaluating the nested matcher. -/
theorem dispatch_ofMatcher {Ctx A : Type} (m : Matcher Ctx A) (ctx : Ctx) :
    dispatch (OnMatch.ofMatcher m) ctx = m.evaluate ctx := by
  rw [OnMatch.ofMatcher, Matcher.evaluate, dispatch.eq_def]

/-- C2: a field matcher whose predicate evaluates true but whose on-match
is a nested sub-matcher producing `none` does not stop evaluation: the
enclosing matcher behaves exactly as if the scan continued at the next
field matcher in declared order (falling through to `on_no_match`, or
`none`, only if no later field matcher produces an outcome). -/
theorem nested_no_match_falls_through {Ctx A : Type}
    (p : Predicate Ctx) (sub : Matcher Ctx A)
    (rest : List (Predicate Ctx × OnMatch Ctx A))
    (fb : Option (OnMatch Ctx A)) (ctx : Ctx)
    (hp : evalPred p ctx = true)
    (hsub : sub.evaluate ctx = Option.none) :
    Matcher.evaluate ⟨(p, OnMatch.ofMatcher sub) :: rest, fb⟩ ctx
      = Matcher.evaluate ⟨rest, fb⟩ ctx := by
  have h1 : scanFieldMatchers ((p, OnMatch.ofMatcher sub) :: rest) ctx
      = scanFieldMatchers rest ctx := by
    rw [scanFieldMatchers.eq_def]
    simp [hp, dispatch_ofMatcher, hsub, Option.orElse]
  simp only [Matcher.evaluate, h1]

/-- Witness for C2: a concrete outer matcher whose first field matcher has
a true predicate and an empty nested sub-matcher. -/
theorem nested_no_match_falls_through_witness :
    Matcher.evaluate
      ⟨[(Predicate.single (fun _ => MatchingData.str "x")
           (fun d => d == MatchingData.str "x"),
         OnMatch.ofMatcher ⟨[], Option.none⟩)],
        some (OnMatch.action "default")⟩ ()
      = Matcher.evaluate
          (⟨[], some (OnMatch.action "default")⟩ : Matcher Unit String) () :=
  nested_no_match_falls_through _ _ _ _ _
    (by simp [evalPred])
    (by simp [Matcher.evaluate, scanFieldMatchers, Option.orElse])

/-- C3: evaluation is a total function from the context to an optional
action — for every compiled matcher and every context it returns either
`some` action or `none`; there is no error outcome in its type and no
context (including one lacking every field) that escapes these two cases. -/
theorem evaluation_total {Ctx A : Type} (m : Matcher Ctx A) (ctx : Ctx) :
    (∃ a, m.evaluate ctx = some a) ∨ m.evaluate ctx = Option.none := by
  cases h : m.evaluate ctx
  · exact Or.inr rfl
  · exact Or.inl ⟨_, rfl⟩

/- ═══════════════ Claude hook-event domain (src/rumi/ext/claude) ═══════════════ -/

/-- Hook event kinds.  Modelled from the spec: `HookEvent` lives in the
claude crate's context module, which is not among the provided sources;
the variants and their strings are fixed by the tests in
src/rumi/ext/claude/src/inputs.rs (lines 240–258). -/
inductive HookEvent where
  | preToolUse
  | postToolUse
  | stop
  | subagentStop
  | userPromptSubmit
  | sessionStart
  | sessionEnd
  | preCompact
  | notification
deriving DecidableEq

/-- The wire string of each event (`HookEvent::as_str`). -/
def HookEvent.asStr : HookEvent → String
  | .preToolUse => "PreToolUse"
  | .postToolUse => "PostToolUse"
  | .stop => "Stop"
  | .subagentStop => "SubagentStop"
  | .userPromptSubmit => "UserPromptSubmit"
  | .sessionStart => "SessionStart"
  | .sessionEnd => "SessionEnd"
  | .preCompact => "PreCompact"
  | .notification => "Notification"

/-- Modelled from the spec: `HookContext` (the claude crate's context
module is not among the provided sources).  A hook event carries the
event kind, the tool name (empty for non-tool events, per the test
`tool_name_input_empty_for_non_tool_events`), named tool arguments, a
session id, a working directory, and an optional git branch. -/
structure HookContext where
  event : HookEvent
  toolName : String
  arguments : List (String × String)
  sessionId : String
  cwd : String
  gitBranch : Option String

/-- `HookContext::pre_tool_use(tool)`. -/
def HookContext.preToolUse (tool : String) : HookContext :=
  ⟨.preToolUse, tool, [], "", "", Option.none⟩

/-- `HookContext::post_tool_use(tool)`. -/
def HookContext.postToolUse (tool : String) : HookContext :=
  ⟨.postToolUse, tool, [], "", "", Option.none⟩

/-- `HookContext::stop()` — a non-tool event: the tool name is empty. -/
def HookContext.stop : HookContext :=
  ⟨.stop, "", [], "", "", Option.none⟩

/-- `HookContext::with_arg(name, value)`. -/
def HookContext.withArg (ctx : HookContext) (nm v : String) : HookContext :=
  { ctx with arguments := (nm, v) :: ctx.arguments }

/-- `HookContext::with_git_branch(branch)`. -/
def HookContext.withGitBranch (ctx : HookContext) (b : String) : HookContext :=
  { ctx with gitBranch := some b }

/-- `HookContext::argument(name)` — look up a tool argument by name. -/
def HookContext.argument (ctx : HookContext) (nm : String) : Option String :=
  (ctx.arguments.find? (fun e => e.1 == nm)).map (fun e => e.2)

/-- `EventInput::get` (inputs.rs lines 10–14). -/
def EventInput.get (ctx : HookContext) : MatchingData :=
  .str ctx.event.asStr

/-- `ToolNameInput::get` (inputs.rs lines 20–24). -/
def ToolNameInput.get (ctx : HookContext) : MatchingData :=
  .str ctx.toolName

/-- `ArgumentInput` (inputs.rs lines 27–37). -/
structure ArgumentInput where
  name : String

/-- `ArgumentInput::get` (inputs.rs lines 39–44): the named argument as a
string, or `MatchingData::None` when the context lacks it. -/
def ArgumentInput.get (i : ArgumentInput) (ctx : HookContext) : MatchingData :=
  match ctx.argument i.name with
  | some s => .str s
  | Option.none => MatchingData.none

/-- `SessionIdInput::get` (inputs.rs lines 50–54). -/
def SessionIdInput.get (ctx : HookContext) : MatchingData :=
  .str ctx.sessionId

/-- `CwdInput::get` (inputs.rs lines 60–64). -/
def CwdInput.get (ctx : HookContext) : MatchingData :=
  .str ctx.cwd

/-- `GitBranchInput::get` (inputs.rs lines 70–75): the git branch as a
string, or `MatchingData::None` when not in a repository. -/
def GitBranchInput.get (ctx : HookContext) : MatchingData :=
  match ctx.gitBranch with
  | some s => .str s
  | Option.none => MatchingData.none

/-- The six Claude-domain input factories (lib.rs lines 63–71 registers
one per input type). -/
inductive ClaudeInputKind where
  | event
  | toolName
  | argument
  | sessionId
  | cwd
  | gitBranch
deriving DecidableEq

/-- The registry builder for the `HookContext` domain: parallel tables of
input factories and value-matcher factories keyed by type url (spec §4.6;
the core registry module is not among the provided sources, so the tables
are modelled as association lists). -/
structure HookRegistryBuilder where
  inputs : List (String × ClaudeInputKind)
  matchers : List String

/-- The empty builder (`RegistryBuilder::new()`). -/
def emptyHookBuilder : HookRegistryBuilder := ⟨[], []⟩

/-- Modelled from the spec: `register_core_matchers` (rumi core, not under
src/) registers the built-in value matchers under the core type urls of
spec §6 (`xuma.core.v1.StringMatcher`, `xuma.core.v1.BoolMatcher`). -/
def registerCoreMatchers (b : HookRegistryBuilder) : HookRegistryBuilder :=
  { b with matchers :=
      b.matchers ++ ["xuma.core.v1.StringMatcher", "xuma.core.v1.BoolMatcher"] }

/-- `register` (src/rumi/ext/claude/src/lib.rs lines 63–71): registers the
core matchers and the six Claude-domain inputs, in declared order, under
their type urls. -/
def claudeRegister (b : HookRegistryBuilder) : HookRegistryBuilder :=
  let b := registerCoreMatchers b
  { b with inputs := b.inputs ++
      [("xuma.claude.v1.EventInput", .event),
       ("xuma.claude.v1.ToolNameInput", .toolName),
       ("xuma.claude.v1.ArgumentInput", .argument),
       ("xuma.claude.v1.SessionIdInput", .sessionId),
       ("xuma.claude.v1.CwdInput", .cwd),
       ("xuma.claude.v1.GitBranchInput", .gitBranch)] }

/-- Resolve a type url in the builder's input table. -/
def HookRegistryBuilder.findInput (b : HookRegistryBuilder) (url : String) :
    Option ClaudeInputKind :=
  (b.inputs.find? (fun e => e.1 == url)).map (fun e => e.2)

/-- The factory of each registered input kind: decode the config payload
and produce the extractor (inputs.rs lines 90–154 for the hand-written
configs, lines 161–225 for the proto configs; in both, every input but
`ArgumentInput` ignores its payload, and `ArgumentInput` reads the
`name` field). -/
def ClaudeInputKind.factory :
    ClaudeInputKind → Json → Except String (HookContext → MatchingData)
  | .event, _ => .ok EventInput.get
  | .toolName, _ => .ok ToolNameInput.get
  | .argument, cfg =>
    match cfg with
    | .obj fs =>
      match getOpt fs "name" with
      | .ok (some (.str nm)) => .ok (ArgumentInput.get ⟨nm⟩)
      | .ok (some _) => .error "invalid type: expected a string for `name`"
      | .ok Option.none => .error "missing field `name`"
      | .error e => .error e
    | _ => .error "invalid type: expected a map for ArgumentInput config"
  | .sessionId, _ => .ok SessionIdInput.get
  | .cwd, _ => .ok CwdInput.get
  | .gitBranch, _ => .ok GitBranchInput.get

/-- C4 counterexample: the Claude domain register function does not
register anything under `xuma.claude.v1.EventTypeInput` or
`xuma.claude.v1.ToolArgInput` — those are the proto message names; the
registered urls use `EventInput` and `ArgumentInput`. -/
theorem claude_register_urls_counterexample :
    (claudeRegister emptyHookBuilder).findInput "xuma.claude.v1.EventTypeInput"
      = Option.none
    ∧ (claudeRegister emptyHookBuilder).findInput "xuma.claude.v1.ToolArgInput"
      = Option.none := by
  constructor <;> rfl

/-- C4 (amended): the register function registers its data inputs under
the type urls `xuma.claude.v1.EventInput`, `…ToolNameInput`,
`…ArgumentInput`, `…SessionIdInput`, `…CwdInput` and `…GitBranchInput`,
and each url resolves to the corresponding extractor (the `ArgumentInput`
factory reads the configured argument name). -/
theorem claude_register_urls :
    (claudeRegister emptyHookBuilder).findInput "xuma.claude.v1.EventInput"
      = some .event
    ∧ (claudeRegister emptyHookBuilder).findInput "xuma.claude.v1.ToolNameInput"
      = some .toolName
    ∧ (claudeRegister emptyHookBuilder).findInput "xuma.claude.v1.ArgumentInput"
      = some .argument
    ∧ (claudeRegister emptyHookBuilder).findInput "xuma.claude.v1.SessionIdInput"
      = some .sessionId
    ∧ (claudeRegister emptyHookBuilder).findInput "xuma.claude.v1.CwdInput"
      = some .cwd
    ∧ (claudeRegister emptyHookBuilder).findInput "xuma.claude.v1.GitBranchInput"
      = some .gitBranch
    ∧ (∀ j, ClaudeInputKind.event.factory j = .ok EventInput.get)
    ∧ (∀ j, ClaudeInputKind.toolName.factory j = .ok ToolNameInput.get)
    ∧ (∀ nm, ClaudeInputKind.argument.factory (.obj [("name", .str nm)])
        = .ok (ArgumentInput.get ⟨nm⟩))
    ∧ (∀ j, ClaudeInputKind.sessionId.factory j = .ok SessionIdInput.get)
    ∧ (∀ j, ClaudeInputKind.cwd.factory j = .ok CwdInput.get)
    ∧ (∀ j, ClaudeInputKind.gitBranch.factory j = .ok GitBranchInput.get) := by
  refine ⟨rfl, rfl, rfl, rfl, rfl, rfl, fun _ => rfl, fun _ => rfl, ?_,
    fun _ => rfl, fun _ => rfl, fun _ => rfl⟩
  intro nm
  simp [ClaudeInputKind.factory, getOpt]

/- ═══════════════ Simple HTTP domain (src/rumi/ext/http/src/simple.rs) ═══════════════ -/

/-- ASCII lowercasing of one character, the fragment of Rust's
`str::to_lowercase` the header claims are about. -/
def lowerChar (c : Char) : Char :=
  if 65 ≤ c.toNat ∧ c.toNat ≤ 90 then Char.ofNat (c.toNat + 32) else c

/-- ASCII lowercasing of a string (`name.to_lowercase()`). -/
def lowerStr (s : String) : String :=
  ⟨s.data.map lowerChar⟩

/-- Two strings are equal up to ASCII case when they lowercase to the
same characters. -/
def asciiCaseEq (s t : String) : Prop :=
  s.data.map lowerChar = t.data.map lowerChar

/-- `HttpRequest` (simple.rs lines 12–18).  The two `HashMap`s are
modelled as association lists whose lookup takes the most recent
binding, matching `HashMap::insert`'s overwrite semantics. -/
structure HttpRequest where
  method : String
  path : String
  headers : List (String × String)
  queryParams : List (String × String)

/-- `HashMap::get` over the association-list model. -/
def mapGet : List (String × String) → String → Option String
  | [], _ => Option.none
  | (k, v) :: rest, nm => if k = nm then some v else mapGet rest nm

/-- `HttpRequest::header` (simple.rs lines 41–43): case-insensitive
lookup — the name is lowercased before the map lookup. -/
def HttpRequest.header (r : HttpRequest) (nm : String) : Option String :=
  mapGet r.headers (lowerStr nm)

/-- `HttpRequest::query_param` (simple.rs lines 47–49). -/
def HttpRequest.queryParam (r : HttpRequest) (nm : String) : Option String :=
  mapGet r.queryParams nm

/-- One step of `HttpRequestBuilder` (simple.rs lines 58–94): the
`header` step lowercases the name before storing it. -/
inductive BuildOp where
  | method (s : String)
  | path (s : String)
  | header (nm v : String)
  | queryParam (nm v : String)

/-- Apply one builder step. -/
def applyOp (r : HttpRequest) : BuildOp → HttpRequest
  | .method s => { r with method := s }
  | .path s => { r with path := s }
  | .header nm v => { r with headers := (lowerStr nm, v) :: r.headers }
  | .queryParam nm v => { r with queryParams := (nm, v) :: r.queryParams }

/-- `HttpRequest::builder()…build()`: the default request (empty strings
and maps, from `#[derive(Default)]`) with the steps applied. -/
def buildRequest (ops : List BuildOp) : HttpRequest :=
  ops.foldl applyOp ⟨"", "", [], []⟩

/-- `SimpleHeaderInput` (simple.rs lines 119–131): `new` lowercases the
configured name at construction. -/
structure SimpleHeaderInput where
  name : String

/-- `SimpleHeaderInput::new` (simple.rs lines 126–130). -/
def SimpleHeaderInput.new (nm : String) : SimpleHeaderInput :=
  ⟨lowerStr nm⟩

/-- `SimpleHeaderInput::get` (simple.rs lines 133–138): the header value
as a string, or `MatchingData::None` when the request lacks it. -/
def SimpleHeaderInput.get (i : SimpleHeaderInput) (r : HttpRequest) : MatchingData :=
  match r.header i.name with
  | some s => .str s
  | Option.none => MatchingData.none

/-- Converting a valid codepoint to a character keeps its value. -/
theorem toNat_ofNat_of_valid (n : Nat) (h : Nat.isValidChar n) :
    (Char.ofNat n).toNat = n := by
  rw [Char.ofNat, dif_pos h]
  rfl

/-- Lowercasing is idempotent on characters. -/
theorem lowerChar_idem (c : Char) : lowerChar (lowerChar c) = lowerChar c := by
  unfold lowerChar
  by_cases h : 65 ≤ c.toNat ∧ c.toNat ≤ 90
  · have hv : Nat.isValidChar (c.toNat + 32) := Or.inl (by omega)
    have ht : (Char.ofNat (c.toNat + 32)).toNat = c.toNat + 32 :=
      toNat_ofNat_of_valid _ hv
    rw [if_pos h, if_neg (by omega)]
  · rw [if_neg h, if_neg h]

/-- Lowercasing is idempotent on strings. -/
theorem lowerStr_idem (s : String) : lowerStr (lowerStr s) = lowerStr s := by
  unfold lowerStr
  simp only [List.map_map]
  congr 1
  exact List.map_congr_left (fun c _ => lowerChar_idem c)

/-- C9: header lookup on the simple `HttpRequest` is case-insensitive in
the header name.  For every request built via the builder and every two
names equal up to ASCII case, `HttpRequest::header` returns the same
result for both, and so does a `SimpleHeaderInput` constructed from
either name — the builder stores names lowercased, `header` lowercases
its argument, and `SimpleHeaderInput::new` lowercases the configured
name at construction. -/
theorem header_lookup_case_insensitive
    (ops : List BuildOp) (n1 n2 : String) (h : asciiCaseEq n1 n2) :
    (buildRequest ops).header n1 = (buildRequest ops).header n2
    ∧ (SimpleHeaderInput.new n1).get (buildRequest ops)
        = (SimpleHeaderInput.new n2).get (buildRequest ops) := by
  have hl : lowerStr n1 = lowerStr n2 := congrArg String.mk h
  constructor
  · simp only [HttpRequest.header, hl]
  · simp only [SimpleHeaderInput.new, SimpleHeaderInput.get,
      HttpRequest.header, lowerStr_idem, hl]

/-- Witness for C9 at a concrete request and two concrete spellings of
the same header name. -/
theorem header_lookup_case_insensitive_witness :
    (buildRequest [.header "X-Custom-Header" "value"]).header "X-CUSTOM-HEADER"
      = (buildRequest [.header "X-Custom-Header" "value"]).header "x-custom-header" :=
  (header_lookup_case_insensitive [.header "X-Custom-Header" "value"]
    "X-CUSTOM-HEADER" "x-custom-header" (by unfold asciiCaseEq; decide)).1

/-- C7: a keyed data input returns `MatchingData::None` exactly when the
context lacks the requested field, and `MatchingData::String` of the
stored value when it is present — for `ArgumentInput` (tool arguments),
`GitBranchInput` (optional git branch) and `SimpleHeaderInput` (request
headers); no input has an error outcome. -/
theorem keyed_inputs_none_iff_absent :
    (∀ (ctx : HookContext) (nm : String),
      (ArgumentInput.get ⟨nm⟩ ctx = MatchingData.none ↔ ctx.argument nm = Option.none)
      ∧ (∀ v, ctx.argument nm = some v → ArgumentInput.get ⟨nm⟩ ctx = .str v))
    ∧ (∀ ctx : HookContext,
      (GitBranchInput.get ctx = MatchingData.none ↔ ctx.gitBranch = Option.none)
      ∧ (∀ b, ctx.gitBranch = some b → GitBranchInput.get ctx = .str b))
    ∧ (∀ (r : HttpRequest) (nm : String),
      ((SimpleHeaderInput.new nm).get r = MatchingData.none ↔
        r.header nm = Option.none)
      ∧ (∀ v, r.header nm = some v → (SimpleHeaderInput.new nm).get r = .str v)) := by
  refine ⟨fun ctx nm => ⟨?_, fun v hv => ?_⟩,
    fun ctx => ⟨?_, fun b hb => ?_⟩, fun r nm => ⟨?_, fun v hv => ?_⟩⟩
  · unfold ArgumentInput.get
    cases ctx.argument nm <;> simp
  · simp [ArgumentInput.get, hv]
  · unfold GitBranchInput.get
    cases ctx.gitBranch <;> simp
  · simp [GitBranchInput.get, hb]
  · unfold SimpleHeaderInput.get SimpleHeaderInput.new HttpRequest.header
    rw [lowerStr_idem]
    cases mapGet r.headers (lowerStr nm) <;> simp
  · unfold SimpleHeaderInput.get SimpleHeaderInput.new HttpRequest.header at *
    rw [lowerStr_idem, hv]

/-- Witness for C7: a hook context carrying one tool argument, looked up
both present and absent, and the git-branch and header cases. -/
theorem keyed_inputs_none_iff_absent_witness :
    ArgumentInput.get ⟨"command"⟩ ((HookContext.preToolUse "Bash").withArg "command" "ls")
      = .str "ls"
    ∧ ArgumentInput.get ⟨"command"⟩ (HookContext.preToolUse "Bash")
      = MatchingData.none
    ∧ GitBranchInput.get ((HookContext.preToolUse "Bash").withGitBranch "main")
      = .str "main"
    ∧ (SimpleHeaderInput.new "Content-Type").get (buildRequest [])
      = MatchingData.none :=
  ⟨(keyed_inputs_none_iff_absent.1
      ((HookContext.preToolUse "Bash").withArg "command" "ls") "command").2 "ls" (by rfl),
   (keyed_inputs_none_iff_absent.1 (HookContext.preToolUse "Bash") "command").1.mpr (by rfl),
   (keyed_inputs_none_iff_absent.2.1
      ((HookContext.preToolUse "Bash").withGitBranch "main")).2 "main" (by rfl),
   (keyed_inputs_none_iff_absent.2.2 (buildRequest []) "Content-Type").1.mpr (by rfl)⟩

/-- Modelled from the spec: the built-in exact matcher (spec §4.1) is
true on `String(s)` iff `s` equals the configured value, and false on
every other data kind, including `None`. -/
def exactMatcherMatches (v : String) (d : MatchingData) : Bool :=
  match d with
  | .str s => s == v
  | _ => false

/-- C10: `ToolNameInput::get` returns a `MatchingData::String` for every
hook context and never `MatchingData::None`; for a non-tool event such as
`Stop` it returns `String("")`, so an `Exact("")` matcher can match
non-tool events — unlike the `None`-returning keyed inputs, on which an
`Exact("")` matcher is false. -/
theorem tool_name_input_always_string :
    (∀ ctx : HookContext, ToolNameInput.get ctx ≠ MatchingData.none)
    ∧ (∀ ctx : HookContext, ∃ s, ToolNameInput.get ctx = .str s)
    ∧ ToolNameInput.get HookContext.stop = .str ""
    ∧ exactMatcherMatches "" (ToolNameInput.get HookContext.stop) = true
    ∧ exactMatcherMatches "" (GitBranchInput.get HookContext.stop) = false := by
  refine ⟨fun ctx => ?_, fun ctx => ⟨ctx.toolName, rfl⟩, rfl, rfl, rfl⟩
  simp [ToolNameInput.get]

/- ═══════════════ Proto bridge (src/rumi/proto/src/convert.rs) ═══════════════ -/

/-- `MatcherError` — the structured load-error kinds (spec §7; the enum
itself lives in the rumi core crate, whose matcher module is not among
the provided sources). -/
inductive MatcherError where
  | invalidConfig (source : String)
  | unknownTypeUrl (url : String) (registered : List String)
  | invalidPattern (pat : String)
  | depthExceeded
deriving DecidableEq

/-- `PredicateConfig` (config.rs lines 57–84): the tagged predicate tree. -/
inductive PredicateConfig where
  | single (sp : SinglePredicateConfig)
  | and (predicates : List PredicateConfig)
  | or (predicates : List PredicateConfig)
  | not (predicate : PredicateConfig)

mutual

/-- `MatcherConfig<A>` (config.rs lines 25–34). -/
inductive MatcherConfig (A : Type) where
  | mk (matchers : List (FieldMatcherConfig A)) (onNoMatch : Option (OnMatchConfig A))

/-- `FieldMatcherConfig<A>` (config.rs lines 37–45). -/
inductive FieldMatcherConfig (A : Type) where
  | mk (predicate : PredicateConfig) (onMatch : OnMatchConfig A)

/-- `OnMatchConfig<A>` (config.rs lines 201–218). -/
inductive OnMatchConfig (A : Type) where
  | action (action : A)
  | matcher (matcher : MatcherConfig A)

end

/-- `google.protobuf.Any`: a type url plus opaque encoded bytes. -/
structure ProtoAny where
  type_url : String
  value : List Nat

/-- xDS `TypedExtensionConfig`: a name and an optional `Any` payload. -/
structure TypedExtensionConfig where
  name : String
  typedConfig : Option ProtoAny

/-- Proto `RegexMatcher` — only its `regex` field is read by the
converter (convert.rs line 236). -/
structure RegexMatcher where
  regex : String

/-- Proto `StringMatcher.match_pattern` oneof. -/
inductive MatchPattern where
  | exact (s : String)
  | pfx (s : String)
  | sfx (s : String)
  | contains (s : String)
  | safeRegex (re : RegexMatcher)
  | custom (ext : TypedExtensionConfig)

/-- Proto `StringMatcher`. -/
structure ProtoStringMatcher where
  ignoreCase : Bool
  matchPattern : Option MatchPattern

mutual

/-- Proto `Matcher` (an optional `on_no_match` and an optional
`matcher_type` oneof). -/
inductive ProtoMatcher where
  | mk (onNoMatch : Option ProtoOnMatch) (matcherType : Option ProtoMatcherType)

/-- Proto `Matcher.matcher_type` oneof: a linear `MatcherList`, or the
keyed `MatcherTree` form (whose payload the converter never inspects). -/
inductive ProtoMatcherType where
  | matcherList (matchers : List ProtoFieldMatcher)
  | matcherTree

/-- Proto `MatcherList.FieldMatcher`. -/
inductive ProtoFieldMatcher where
  | mk (predicate : Option ProtoPredicate) (onMatch : Option ProtoOnMatch)

/-- Proto `MatcherList.Predicate` (an optional `match_type` oneof). -/
inductive ProtoPredicate where
  | mk (matchType : Option ProtoMatchType)

/-- Proto `Predicate.match_type` oneof. -/
inductive ProtoMatchType where
  | singlePredicate (sp : ProtoSinglePredicate)
  | orMatcher (predicate : List ProtoPredicate)
  | andMatcher (predicate : List ProtoPredicate)
  | notMatcher (p : ProtoPredicate)

/-- Proto `SinglePredicate`. -/
inductive ProtoSinglePredicate where
  | mk (input : Option TypedExtensionConfig) (matcher : Option ProtoSPMatcher)

/-- Proto `SinglePredicate.matcher` oneof. -/
inductive ProtoSPMatcher where
  | valueMatch (sm : ProtoStringMatcher)
  | customMatch (ext : TypedExtensionConfig)

/-- Proto `OnMatch` (a `keep_matching` flag and an optional oneof). -/
inductive ProtoOnMatch where
  | mk (keepMatching : Bool) (onMatch : Option ProtoOnMatchVariant)

/-- Proto `OnMatch.on_match` oneof. -/
inductive ProtoOnMatchVariant where
  | action (ext : TypedExtensionConfig)
  | matcher (m : ProtoMatcher)

end

/-- The `AnyResolver` (the any_resolver module is not among the provided
sources): decodes a `TypedExtensionConfig` into a `TypedConfig`, failing
for unregistered type urls.  The converter only threads it through, so it
is modelled as an arbitrary function. -/
def AnyResolverFn : Type :=
  TypedExtensionConfig → Except MatcherError TypedConfig

/-- `convert_string_matcher` (convert.rs lines 214–241): map each
`match_pattern` variant to the same-named `StringMatchSpec` variant;
a missing pattern or a `Custom` extension pattern is an `InvalidConfig`
error.  `ignore_case` is not represented in `StringMatchSpec`. -/
def convert_string_matcher (sm : ProtoStringMatcher) :
    Except MatcherError StringMatchSpec :=
  match sm.matchPattern with
  | Option.none => .error (.invalidConfig "StringMatcher has no match_pattern")
  | some (.exact s) => .ok (.Exact s)
  | some (.pfx s) => .ok (.Prefix s)
  | some (.sfx s) => .ok (.Suffix s)
  | some (.contains s) => .ok (.Contains s)
  | some (.safeRegex re) => .ok (.Regex re.regex)
  | some (.custom _) =>
    .error (.invalidConfig "Custom StringMatcher extensions not yet supported")

/-- `convert_single_predicate` (convert.rs lines 177–212). -/
def convert_single_predicate (sp : ProtoSinglePredicate) (r : AnyResolverFn) :
    Except MatcherError SinglePredicateConfig :=
  match sp with
  | .mk inputExt matcherOneof => do
    let input ← match inputExt with
      | some ext => r ext
      | Option.none => .error (.invalidConfig "SinglePredicate has no input")
    let matcher ← match matcherOneof with
      | some (.valueMatch sm) =>
        (convert_string_matcher sm).map ValueMatchConfig.builtIn
      | some (.customMatch ext) => (r ext).map ValueMatchConfig.custom
      | Option.none => .error (.invalidConfig "SinglePredicate has no matcher")
    .ok ⟨input, matcher⟩

mutual

/-- `convert_matcher` (convert.rs lines 76–108): only the `MatcherList`
form is supported — `MatcherTree` and a missing `matcher_type` are
`InvalidConfig` errors; the field matchers are converted in order, then
the optional `on_no_match`. -/
def convert_matcher (m : ProtoMatcher) (r : AnyResolverFn) :
    Except MatcherError (MatcherConfig TypedConfig) :=
  match m with
  | .mk onNoMatch matcherType => do
    let matchers ← match matcherType with
      | some (.matcherList fms) => convertFieldMatcherList fms r
      | some .matcherTree =>
        .error (.invalidConfig "MatcherTree is not yet supported; use MatcherList")
      | Option.none => .error (.invalidConfig "Matcher has no matcher_type set")
    let onm ← match onNoMatch with
      | some om => (convert_on_match om r).map some
      | Option.none => .ok Option.none
    .ok (.mk matchers onm)

/-- The ordered `collect` over field matchers in `convert_matcher`
(convert.rs lines 81–85): first error wins, order and count preserved. -/
def convertFieldMatcherList (fms : List ProtoFieldMatcher) (r : AnyResolverFn) :
    Except MatcherError (List (FieldMatcherConfig TypedConfig)) :=
  match fms with
  | [] => .ok []
  | fm :: rest => do
    let c ← convert_field_matcher fm r
    let cs ← convertFieldMatcherList rest r
    .ok (c :: cs)

/-- `convert_field_matcher` (convert.rs lines 110–132): `predicate` and
`on_match` are both required. -/
def convert_field_matcher (fm : ProtoFieldMatcher) (r : AnyResolverFn) :
    Except MatcherError (FieldMatcherConfig TypedConfig) :=
  match fm with
  | .mk Option.none _ => .error (.invalidConfig "FieldMatcher has no predicate")
  | .mk (some _) Option.none => .error (.invalidConfig "FieldMatcher has no on_match")
  | .mk (some pred) (some om) => do
    let pc ← convert_predicate pred r
    let omc ← convert_on_match om r
    .ok (.mk pc omc)

/-- `convert_predicate` (convert.rs lines 134–175): each proto node kind
maps to the same-kind config node, children converted in declared order. -/
def convert_predicate (p : ProtoPredicate) (r : AnyResolverFn) :
    Except MatcherError PredicateConfig :=
  match p with
  | .mk matchType? =>
    match matchType? with
    | Option.none => .error (.invalidConfig "Predicate has no match_type")
    | some (.singlePredicate sp) =>
      (convert_single_predicate sp r).map PredicateConfig.single
    | some (.orMatcher ps) => (convertPredicateList ps r).map PredicateConfig.or
    | some (.andMatcher ps) => (convertPredicateList ps r).map PredicateConfig.and
    | some (.notMatcher inner) =>
      (convert_predicate inner r).map PredicateConfig.not

/-- The ordered `collect` over child predicates in `convert_predicate`
(convert.rs lines 152–167). -/
def convertPredicateList (ps : List ProtoPredicate) (r : AnyResolverFn) :
    Except MatcherError (List PredicateConfig) :=
  match ps with
  | [] => .ok []
  | p :: rest => do
    let c ← convert_predicate p r
    let cs ← convertPredicateList rest r
    .ok (c :: cs)

/-- `convert_on_match` (convert.rs lines 243–268): an action resolves its
`Any` payload; a nested matcher converts recursively; the oneof is
required. -/
def convert_on_match (om : ProtoOnMatch) (r : AnyResolverFn) :
    Except MatcherError (OnMatchConfig TypedConfig) :=
  match om with
  | .mk _keep onMatch? =>
    match onMatch? with
    | Option.none => .error (.invalidConfig "OnMatch has no on_match variant set")
    | some (.action ext) => (r ext).map OnMatchConfig.action
    | some (.matcher nested) =>
      (convert_matcher nested r).map OnMatchConfig.matcher

end

/-- A field matcher list containing an element that fails to convert
makes the whole ordered collect fail. -/
theorem convertFieldMatcherList_err
    (pre post : List ProtoFieldMatcher) (bad : ProtoFieldMatcher)
    (r : AnyResolverFn) (e0 : MatcherError)
    (hbad : convert_field_matcher bad r = .error e0) :
    ∃ e, convertFieldMatcherList (pre ++ bad :: post) r = .error e := by
  induction pre with
  | nil =>
    refine ⟨e0, ?_⟩
    rw [List.nil_append, convertFieldMatcherList.eq_def]
    simp [hbad, bind, Except.bind]
  | cons fm pre ih =>
    rw [List.cons_append, convertFieldMatcherList.eq_def]
    cases hfm : convert_field_matcher fm r with
    | error e => exact ⟨e, by simp [hfm, bind, Except.bind]⟩
    | ok c =>
      obtain ⟨e, he⟩ := ih
      exact ⟨e, by simp [hfm, he, bind, Except.bind]⟩

/-- A matcher in `MatcherList` form whose field matcher list fails to
collect fails as a whole. -/
theorem convert_matcher_list_err
    (fms : List ProtoFieldMatcher) (onm : Option ProtoOnMatch)
    (r : AnyResolverFn) (e : MatcherError)
    (h : convertFieldMatcherList fms r = .error e) :
    convert_matcher (.mk onm (some (.matcherList fms))) r = .error e := by
  rw [convert_matcher.eq_def]
  simp [h, bind, Except.bind]

/-- C6: proto-to-config conversion fails with an `InvalidConfig` error —
returning no config — when the proto `Matcher` has no `matcher_type`,
when its `matcher_type` is `MatcherTree`, and when a `FieldMatcher`
lacks its `predicate` or its `on_match`; a matcher list containing such
a field matcher fails as a whole. -/
theorem convert_rejects_missing_parts :
    (∀ (onm : Option ProtoOnMatch) (r : AnyResolverFn),
      convert_matcher (.mk onm Option.none) r
        = .error (.invalidConfig "Matcher has no matcher_type set"))
    ∧ (∀ (onm : Option ProtoOnMatch) (r : AnyResolverFn),
      convert_matcher (.mk onm (some .matcherTree)) r
        = .error (.invalidConfig "MatcherTree is not yet supported; use MatcherList"))
    ∧ (∀ (om : Option ProtoOnMatch) (r : AnyResolverFn),
      convert_field_matcher (.mk Option.none om) r
        = .error (.invalidConfig "FieldMatcher has no predicate"))
    ∧ (∀ (p : ProtoPredicate) (r : AnyResolverFn),
      convert_field_matcher (.mk (some p) Option.none) r
        = .error (.invalidConfig "FieldMatcher has no on_match"))
    ∧ (∀ (pre post : List ProtoFieldMatcher) (om : Option ProtoOnMatch)
        (onm : Option ProtoOnMatch) (r : AnyResolverFn),
      ∃ e, convert_matcher
        (.mk onm (some (.matcherList (pre ++ .mk Option.none om :: post)))) r
          = .error e)
    ∧ (∀ (pre post : List ProtoFieldMatcher) (p : ProtoPredicate)
        (onm : Option ProtoOnMatch) (r : AnyResolverFn),
      ∃ e, convert_matcher
        (.mk onm (some (.matcherList (pre ++ .mk (some p) Option.none :: post)))) r
          = .error e) := by
  have h3 : ∀ (om : Option ProtoOnMatch) (r : AnyResolverFn),
      convert_field_matcher (.mk Option.none om) r
        = .error (.invalidConfig "FieldMatcher has no predicate") := by
    intro om r
    rw [convert_field_matcher.eq_def]
  have h4 : ∀ (p : ProtoPredicate) (r : AnyResolverFn),
      convert_field_matcher (.mk (some p) Option.none) r
        = .error (.invalidConfig "FieldMatcher has no on_match") := by
    intro p r
    rw [convert_field_matcher.eq_def]
  refine ⟨fun onm r => ?_, fun onm r => ?_, h3, h4, fun pre post om onm r => ?_,
    fun pre post p onm r => ?_⟩
  · rw [convert_matcher.eq_def]
    rfl
  · rw [convert_matcher.eq_def]
    rfl
  · obtain ⟨e, he⟩ := convertFieldMatcherList_err pre post _ r _ (h3 om r)
    exact ⟨e, convert_matcher_list_err _ _ _ _ he⟩
  · obtain ⟨e, he⟩ := convertFieldMatcherList_err pre post _ r _ (h4 p r)
    exact ⟨e, convert_matcher_list_err _ _ _ _ he⟩

/-- The ordered collect over child predicates preserves count and
converts children pointwise, in declared order. -/
theorem convertPredicateList_spec (ps : List ProtoPredicate) (r : AnyResolverFn)
    (cs : List PredicateConfig) (h : convertPredicateList ps r = .ok cs) :
    cs.length = ps.length
    ∧ ∀ i (h1 : i < ps.length) (h2 : i < cs.length),
        convert_predicate (ps.get ⟨i, h1⟩) r = .ok (cs.get ⟨i, h2⟩) := by
  induction ps generalizing cs with
  | nil =>
    rw [convertPredicateList.eq_def] at h
    cases h
    exact ⟨rfl, fun i h1 _ => absurd h1 (Nat.not_lt_zero i)⟩
  | cons p rest ih =>
    rw [convertPredicateList.eq_def] at h
    dsimp only at h
    cases hp : convert_predicate p r with
    | error e => rw [hp] at h; simp [bind, Except.bind] at h
    | ok c =>
      rw [hp] at h
      cases hrest : convertPredicateList rest r with
      | error e => rw [hrest] at h; simp [bind, Except.bind] at h
      | ok cs2 =>
        rw [hrest] at h
        simp only [bind, Except.bind, Except.ok.injEq] at h
        subst h
        obtain ⟨hlen, hpt⟩ := ih cs2 hrest
        refine ⟨by simp [hlen], fun i h1 h2 => ?_⟩
        cases i with
        | zero => exact hp
        | succ n =>
          exact hpt n (Nat.lt_of_succ_lt_succ h1) (Nat.lt_of_succ_lt_succ h2)

/-- The ordered collect over field matchers preserves count and converts
them pointwise, in declared order. -/
theorem convertFieldMatcherList_spec (fms : List ProtoFieldMatcher)
    (r : AnyResolverFn) (cs : List (FieldMatcherConfig TypedConfig))
    (h : convertFieldMatcherList fms r = .ok cs) :
    cs.length = fms.length
    ∧ ∀ i (h1 : i < fms.length) (h2 : i < cs.length),
        convert_field_matcher (fms.get ⟨i, h1⟩) r = .ok (cs.get ⟨i, h2⟩) := by
  induction fms generalizing cs with
  | nil =>
    rw [convertFieldMatcherList.eq_def] at h
    cases h
    exact ⟨rfl, fun i h1 _ => absurd h1 (Nat.not_lt_zero i)⟩
  | cons fm rest ih =>
    rw [convertFieldMatcherList.eq_def] at h
    dsimp only at h
    cases hfm : convert_field_matcher fm r with
    | error e => rw [hfm] at h; simp [bind, Except.bind] at h
    | ok c =>
      rw [hfm] at h
      cases hrest : convertFieldMatcherList rest r with
      | error e => rw [hrest] at h; simp [bind, Except.bind] at h
      | ok cs2 =>
        rw [hrest] at h
        simp only [bind, Except.bind, Except.ok.injEq] at h
        subst h
        obtain ⟨hlen, hpt⟩ := ih cs2 hrest
        refine ⟨by simp [hlen], fun i h1 h2 => ?_⟩
        cases i with
        | zero => exact hfm
        | succ n =>
          exact hpt n (Nat.lt_of_succ_lt_succ h1) (Nat.lt_of_succ_lt_succ h2)

/-- The spec's words for the pattern mapping of the proto bridge: each
`StringMatcher` pattern Exact/Prefix/Suffix/Contains/SafeRegex maps to
the same-named `StringMatchSpec` variant with the same pattern string
(`Custom` has no counterpart). -/
def specStringSpecOfPattern : MatchPattern → Option StringMatchSpec
  | .exact s => some (.Exact s)
  | .pfx s => some (.Prefix s)
  | .sfx s => some (.Suffix s)
  | .contains s => some (.Contains s)
  | .safeRegex re => some (.Regex re.regex)
  | .custom _ => Option.none

/-- C5: proto-to-config conversion produces the same config nodes the
JSON path describes — every supported `StringMatcher` pattern converts
to the spec's same-named `StringMatchSpec` variant with the same pattern
string (for any `ignore_case`), and each proto
SinglePredicate/AndMatcher/OrMatcher/NotMatcher node converts to the
same-kind config node with children converted in declared order and
unchanged count, as does the `MatcherList` of field matchers. -/
theorem convert_preserves_structure :
    (∀ (ic : Bool) (mp : MatchPattern) (spec : StringMatchSpec),
      specStringSpecOfPattern mp = some spec →
      convert_string_matcher ⟨ic, some mp⟩ = .ok spec)
    ∧ (∀ (sp : ProtoSinglePredicate) (r : AnyResolverFn) (c : PredicateConfig),
      convert_predicate (.mk (some (.singlePredicate sp))) r = .ok c →
      ∃ s0, c = .single s0 ∧ convert_single_predicate sp r = .ok s0)
    ∧ (∀ (ps : List ProtoPredicate) (r : AnyResolverFn) (c : PredicateConfig),
      convert_predicate (.mk (some (.andMatcher ps))) r = .ok c →
      ∃ cs, c = .and cs ∧ cs.length = ps.length
        ∧ ∀ i (h1 : i < ps.length) (h2 : i < cs.length),
            convert_predicate (ps.get ⟨i, h1⟩) r = .ok (cs.get ⟨i, h2⟩))
    ∧ (∀ (ps : List ProtoPredicate) (r : AnyResolverFn) (c : PredicateConfig),
      convert_predicate (.mk (some (.orMatcher ps))) r = .ok c →
      ∃ cs, c = .or cs ∧ cs.length = ps.length
        ∧ ∀ i (h1 : i < ps.length) (h2 : i < cs.length),
            convert_predicate (ps.get ⟨i, h1⟩) r = .ok (cs.get ⟨i, h2⟩))
    ∧ (∀ (p : ProtoPredicate) (r : AnyResolverFn) (c : PredicateConfig),
      convert_predicate (.mk (some (.notMatcher p))) r = .ok c →
      ∃ c0, c = .not c0 ∧ convert_predicate p r = .ok c0)
    ∧ (∀ (fms : List ProtoFieldMatcher) (onm : Option ProtoOnMatch)
        (r : AnyResolverFn) (cfg : MatcherConfig TypedConfig),
      convert_matcher (.mk onm (some (.matcherList fms))) r = .ok cfg →
      ∃ cs fb, cfg = .mk cs fb ∧ cs.length = fms.length
        ∧ ∀ i (h1 : i < fms.length) (h2 : i < cs.length),
            convert_field_matcher (fms.get ⟨i, h1⟩) r = .ok (cs.get ⟨i, h2⟩)) := by
  refine ⟨?_, ?_, ?_, ?_, ?_, ?_⟩
  · intro ic mp spec h
    cases mp <;> simp_all [specStringSpecOfPattern, convert_string_matcher]
  · intro sp r c h
    rw [convert_predicate.eq_def] at h
    dsimp only at h
    cases hsp : convert_single_predicate sp r with
    | error e => rw [hsp] at h; simp [Except.map] at h
    | ok s0 =>
      rw [hsp] at h
      simp only [Except.map, Except.ok.injEq] at h
      exact ⟨s0, h.symm, rfl⟩
  · intro ps r c h
    rw [convert_predicate.eq_def] at h
    dsimp only at h
    cases hl : convertPredicateList ps r with
    | error e => rw [hl] at h; simp [Except.map] at h
    | ok cs =>
      rw [hl] at h
      simp only [Except.map, Except.ok.injEq] at h
      obtain ⟨hlen, hpt⟩ := convertPredicateList_spec ps r cs hl
      exact ⟨cs, h.symm, hlen, hpt⟩
  · intro ps r c h
    rw [convert_predicate.eq_def] at h
    dsimp only at h
    cases hl : convertPredicateList ps r with
    | error e => rw [hl] at h; simp [Except.map] at h
    | ok cs =>
      rw [hl] at h
      simp only [Except.map, Except.ok.injEq] at h
      obtain ⟨hlen, hpt⟩ := convertPredicateList_spec ps r cs hl
      exact ⟨cs, h.symm, hlen, hpt⟩
  · intro p r c h
    rw [convert_predicate.eq_def] at h
    dsimp only at h
    cases hp : convert_predicate p r with
    | error e => rw [hp] at h; simp [Except.map] at h
    | ok c0 =>
      rw [hp] at h
      simp only [Except.map, Except.ok.injEq] at h
      exact ⟨c0, h.symm, rfl⟩
  · intro fms onm r cfg h
    rw [convert_matcher.eq_def] at h
    dsimp only at h
    cases hl : convertFieldMatcherList fms r with
    | error e => rw [hl] at h; simp [bind, Except.bind] at h
    | ok cs =>
      rw [hl] at h
      simp only [bind, Except.bind] at h
      obtain ⟨hlen, hpt⟩ := convertFieldMatcherList_spec fms r cs hl
      cases onm with
      | none =>
        dsimp only at h
        simp only [Except.ok.injEq] at h
        exact ⟨cs, Option.none, h.symm, hlen, hpt⟩
      | some om =>
        dsimp only at h
        cases hom : convert_on_match om r with
        | error e => rw [hom] at h; simp [Except.map] at h
        | ok o =>
          rw [hom] at h
          simp only [Except.map, Except.ok.injEq] at h
          exact ⟨cs, some o, h.symm, hlen, hpt⟩

/-- A constant resolver used by the C5 witness: every extension decodes
to the same typed config. -/
def constResolver : AnyResolverFn := fun _ => .ok ⟨"u", .obj []⟩

/-- Witness for C5: a two-child And node over single predicates with a
constant resolver, converted concretely. -/
theorem convert_preserves_structure_witness :
    ∃ cs, PredicateConfig.and [.single ⟨⟨"u", .obj []⟩, .builtIn (.Exact "a")⟩,
        .single ⟨⟨"u", .obj []⟩, .builtIn (.Exact "b")⟩] = .and cs
      ∧ cs.length = 2 := by
  have h : convert_predicate (.mk (some (.andMatcher
      [.mk (some (.singlePredicate (.mk (some ⟨"in", Option.none⟩)
         (some (.valueMatch ⟨false, some (.exact "a")⟩))))),
       .mk (some (.singlePredicate (.mk (some ⟨"in", Option.none⟩)
         (some (.valueMatch ⟨false, some (.exact "b")⟩)))))]))) constResolver
      = .ok (.and [.single ⟨⟨"u", .obj []⟩, .builtIn (.Exact "a")⟩,
          .single ⟨⟨"u", .obj []⟩, .builtIn (.Exact "b")⟩]) := by
    simp [convert_predicate, convertPredicateList, convert_single_predicate,
      convert_string_matcher, constResolver, bind, Except.bind, Except.map]
  obtain ⟨cs, hc, hlen, _⟩ :=
    (convert_preserves_structure.2.2.1) _ constResolver _ h
  exact ⟨cs, hc, by rw [hlen]; rfl⟩
